import Mathlib

/-!
# Verification of the Subtitle-Downloader capture pipeline

A shallow embedding of the core functions of
`src/Subtile Downlaoder/background.js`: the URL classifier
(`isSubtitleUrl`), the content validator (`isValidSubtitleContent`),
the filename generators (`generateSmartFilename`, `generateFilename`),
the cache cleanup sweep (`cleanupCache` and the periodic interval
body), and the fetch-and-ingest orchestrator (`fetchAndCacheSubtitle`).

JavaScript strings are modelled as Lean `String`s (operated on through
their `List Char` data, ASCII-faithful), JS `Map`/`Set` as insertion
ordered lists (newest appended at the end, as `Array.from` exposes
them), `Date.now()` as an explicit `now : Nat` parameter, and the
network as an oracle giving the outcome of each `fetchWithStrategies`
call.  The concrete regular expressions of the source are compiled by
hand into deterministic scanners; every such scanner is commented with
the regex it implements.
-/

/-- JavaScript `\s` (ASCII range): the whitespace characters recognised
by `trim`, `\s*` and `\s+` in the source's regexes. -/
def isWS (c : Char) : Bool :=
  c = ' ' || c = '\t' || c = '\n' || c = '\r' || c = '\x0b' || c = '\x0c'

/-- Models `String.prototype.toLowerCase` on the character data (ASCII). -/
def lowerL (l : List Char) : List Char := l.map Char.toLower

/-- Models `String.prototype.trim` on character data. -/
def trimL (l : List Char) : List Char :=
  ((l.dropWhile isWS).reverse.dropWhile isWS).reverse

/-- Generic anywhere-scanner: `scanB p l` is true iff `p` holds of some
suffix of `l` (used to compile unanchored regex/`includes` searches). -/
def scanB (p : List Char → Bool) : List Char → Bool
  | [] => p []
  | c :: t => p (c :: t) || scanB p t

/-- Models `String.prototype.includes pat` on character data. -/
def containsL (l : List Char) (pat : String) : Bool :=
  scanB (fun t => pat.data.isPrefixOf t) l

/-- Models `String.prototype.includes` on strings. -/
def containsS (s pat : String) : Bool := containsL s.data pat

/-- Models `String.prototype.startsWith pat` on character data. -/
def startsWithL (l : List Char) (pat : String) : Bool := pat.data.isPrefixOf l

/-- Models `String.prototype.endsWith pat` on strings. -/
def endsWithS (s pat : String) : Bool := pat.data.isSuffixOf s.data

/-- Terminator `(\?|$)` of the extension regexes: end of input or `?`. -/
def extTermOk : List Char → Bool
  | [] => true
  | '?' :: _ => true
  | _ => false

/-- Matcher, at one position, for `\.(e₁|e₂|…)(\?|$)` given the
alternation list: a dot, one of the extensions, then `?` or the end. -/
def dotExtAt (exts : List (List Char)) : List Char → Bool
  | '.' :: r => exts.any (fun e => e.isPrefixOf r && extTermOk (r.drop e.length))
  | _ => false

/-- Anywhere-match of `/\.(e₁|…)(\?|$)/` over the string. -/
def dotExtScan (exts : List (List Char)) (l : List Char) : Bool :=
  scanB (dotExtAt exts) l

/-- The excluded-extension alternation of `isSubtitleUrl`:
`/\.(js|javascript|json|css|html|php|xml|map|txt|log)(\?|$)/i`. -/
def nonSubtitleExts : List (List Char) :=
  ["js", "javascript", "json", "css", "html", "php", "xml", "map", "txt", "log"].map String.data

/-- The subtitle-extension alternation:
`/\.(vtt|srt|ass|ssa|sbv|sub|ttml|dfxp)(\?|$)/i`. -/
def subtitleExts : List (List Char) :=
  ["vtt", "srt", "ass", "ssa", "sbv", "sub", "ttml", "dfxp"].map String.data

/-- The ad/tracking/bundler substring rejections of `isSubtitleUrl`
(a chain of `lowerUrl.includes(...)` tests in the source). -/
def adTrackingScan (l : List Char) : Bool :=
  containsL l "google-analytics" || containsL l "doubleclick" ||
  containsL l "analytics" || containsL l "tracking" ||
  containsL l "adserver" || containsL l "webpack" ||
  containsL l "chunk" || containsL l "polyfill"

/-- Pattern `/\/subtitles?\//i`: contains `/subtitle/` or `/subtitles/`. -/
def subtitlePathScan (l : List Char) : Bool :=
  containsL l "/subtitle/" || containsL l "/subtitles/"

/-- Pattern `/\/captions?\//i`: contains `/caption/` or `/captions/`. -/
def captionPathScan (l : List Char) : Bool :=
  containsL l "/caption/" || containsL l "/captions/"

/-- Models `isSubtitleUrl` (background.js lines 28-52): lowercase the URL,
reject known non-subtitle extensions, reject ad/tracking/bundler
substrings, then accept subtitle extensions or `/subtitle(s)/` /
`/caption(s)/` path segments. -/
def isSubtitleUrl (url : String) : Bool :=
  let lowerUrl := lowerL url.data
  if dotExtScan nonSubtitleExts lowerUrl then false
  else if adTrackingScan lowerUrl then false
  else
    dotExtScan subtitleExts lowerUrl || subtitlePathScan lowerUrl ||
      captionPathScan lowerUrl

/-- One step of an `Option`-valued parser: expect the literal character
`c` (case-sensitively) and return the remainder. -/
def expectChar (c : Char) : List Char → Option (List Char)
  | x :: t => if x = c then some t else none
  | [] => none

/-- Expect exactly `n` decimal digits (`\d{n}`). -/
def expectDigits : Nat → List Char → Option (List Char)
  | 0, l => some l
  | n + 1, x :: t => if x.isDigit then expectDigits n t else none
  | _ + 1, [] => none

/-- Pattern `\d{1,2}` (greedy, as in the source regexes; since the character
after the digits is never itself a digit, greediness is lossless). -/
def expectD12 : List Char → Option (List Char)
  | a :: b :: t =>
    if a.isDigit then (if b.isDigit then some t else some (b :: t)) else none
  | [a] => if a.isDigit then some [] else none
  | [] => none

/-- Pattern `[,\.]`: a comma or a dot. -/
def expectCommaDot : List Char → Option (List Char)
  | x :: t => if x = ',' || x = '.' then some t else none
  | [] => none

/-- Matcher at one position for
`/\d{1,2}:\d{2}:\d{2}[,\.]\d{3}\s*-->/` (first timing pattern of
`isValidSubtitleContent`'s fallback list). -/
def timing1At (l : List Char) : Bool :=
  (do
    let l ← expectD12 l
    let l ← expectChar ':' l
    let l ← expectDigits 2 l
    let l ← expectChar ':' l
    let l ← expectDigits 2 l
    let l ← expectCommaDot l
    let l ← expectDigits 3 l
    let l := l.dropWhile isWS
    if ("-->".data.isPrefixOf l) then some l else none).isSome

/-- Matcher at one position for
`/\d{1,2}:\d{2}:\d{2}\.\d{3}\s*-->\s*\d{1,2}:\d{2}:\d{2}\.\d{3}/`
(second timing pattern of the fallback list). -/
def timing2At (l : List Char) : Bool :=
  (do
    let l ← expectD12 l
    let l ← expectChar ':' l
    let l ← expectDigits 2 l
    let l ← expectChar ':' l
    let l ← expectDigits 2 l
    let l ← expectChar '.' l
    let l ← expectDigits 3 l
    let l := l.dropWhile isWS
    let l ← (if ("-->".data.isPrefixOf l) then some (l.drop 3) else none)
    let l := l.dropWhile isWS
    let l ← expectD12 l
    let l ← expectChar ':' l
    let l ← expectDigits 2 l
    let l ← expectChar ':' l
    let l ← expectDigits 2 l
    let l ← expectChar '.' l
    let l ← expectDigits 3 l
    pure l).isSome

/-- Pattern `\s*[\r\n]` after the cue index: skip whitespace; succeed on the
first `\r`/`\n` found, fail on any other character or the end. -/
def wsThenNewline : List Char → Bool
  | [] => false
  | c :: t => if c = '\r' || c = '\n' then true else (isWS c && wsThenNewline t)

/-- Pattern `/^\d+\s*[\r\n]/`: at least one leading digit, then whitespace up
to a line break (the SRT cue-index signature).  Consuming the maximal
digit run is lossless because neither `\s` nor `[\r\n]` matches a
digit. -/
def srtCueStart (l : List Char) : Bool :=
  match l with
  | c :: _ => c.isDigit && wsThenNewline (l.dropWhile Char.isDigit)
  | [] => false

/-- The rejection disjunction of `isValidSubtitleContent`
(background.js lines 60-74), evaluated on the lowercased content:
HTML, script, JSON, bundler and JW-Player-banner look-alikes. -/
def hasRejectPattern (content : String) : Bool :=
  let lowerContent := lowerL content.data
  containsL lowerContent "<!doctype" ||
  containsL lowerContent "<html" ||
  containsL lowerContent "function(" ||
  containsL lowerContent "var " ||
  containsL lowerContent "const " ||
  containsL lowerContent "let " ||
  containsL lowerContent "=>" ||
  containsL lowerContent "json.parse" ||
  (match trimL lowerContent with
   | c :: _ => c = '\x7b' || c = '['
   | [] => false) ||
  containsL lowerContent "webpack" ||
  (containsL lowerContent "copyright" && containsL lowerContent "jw player") ||
  containsL lowerContent "self.webpackchunk"

/-- The fallback pattern list of `isValidSubtitleContent`
(background.js lines 100-110), tested anywhere in the full content;
the literal patterns carry `/i`, the timing patterns contain no
letters. -/
def fallbackPatterns (content : List Char) : Bool :=
  let low := lowerL content
  containsL low "webvtt" ||
  containsL low "[script info]" ||
  containsL low "[events]" ||
  containsL low "dialogue:" ||
  containsL low "format:" ||
  scanB timing1At content ||
  scanB timing2At content

/-- Models `isValidSubtitleContent` (background.js lines 55-111): rejection
patterns first (any match forces `false`), then the start-anchored
signatures on the trimmed content, then the fallback pattern scan.
The `url` argument is lowercased by the source but never read
afterwards. -/
def isValidSubtitleContent (content url : String) : Bool :=
  let _lowerUrl := lowerL url.data
  if hasRejectPattern content then false
  else
    let trimmedContent := trimL content.data
    if startsWithL trimmedContent "WEBVTT" then true
    else if containsL trimmedContent "[Script Info]" then true
    else if srtCueStart trimmedContent then true
    else if startsWithL trimmedContent "<?xml" || containsL trimmedContent "<tt" then true
    else fallbackPatterns content.data

example : isValidSubtitleContent "WEBVTT\n\n00:00:01.000 --> 00:00:02.000\nHello" "u" = true := by decide
example : isValidSubtitleContent "<!DOCTYPE html><html></html>" "u" = false := by decide
example : isValidSubtitleContent "\x7b\"a\":1\x7d" "u" = false := by decide
example : isValidSubtitleContent "1\n00:00:00,000 --> 00:00:01,000\nHi" "u" = true := by decide
example : isValidSubtitleContent "WEBVTT but webpack inside" "u" = false := by decide
example : isValidSubtitleContent "  [Script Info]" "u" = false := by decide
example : isValidSubtitleContent "x\n[Script Info]" "u" = true := by decide
example : isValidSubtitleContent "nothing here" "u" = false := by decide
example : isValidSubtitleContent "x 00:11:22.333 --> y" "u" = true := by decide

/-- Decimal digits of `n`, most significant first, fuelled (the fuel
`n + 1` always suffices since each step divides by 10).  Models the
string interpolation of a JS number (`Date.now()`). -/
def natDigitsAux : Nat → Nat → List Char
  | 0, _ => []
  | fuel + 1, n =>
    if n < 10 then [Nat.digitChar n]
    else natDigitsAux fuel (n / 10) ++ [Nat.digitChar (n % 10)]

/-- The decimal numeral of `n` as character data. -/
def natStrL (n : Nat) : List Char := natDigitsAux (n + 1) n

/-- The decimal numeral of `n` as a string. -/
def natStr (n : Nat) : String := ⟨natStrL n⟩

/-- Models `String.prototype.split(sep)` for a one-character separator
(accumulator holds the current field reversed). -/
def splitOnCAux (sep : Char) : List Char → List Char → List (List Char)
  | [], acc => [acc.reverse]
  | c :: t, acc =>
    if c = sep then acc.reverse :: splitOnCAux sep t []
    else splitOnCAux sep t (c :: acc)

/-- Models `String.prototype.split(sep)` on character data. -/
def splitOnC (sep : Char) (l : List Char) : List (List Char) := splitOnCAux sep l []

/-- Matcher at one position for `/s(\d+)e(\d+)/i`: returns the two
digit captures and the remainder after the match.  The maximal digit
run is correct because `e` is not a digit. -/
def matchR1At : List Char → Option (List Char × List Char × List Char)
  | c :: rest =>
    if c.toLower = 's' then
      let ds := rest.takeWhile Char.isDigit
      if ds.isEmpty then none
      else
        match rest.drop ds.length with
        | e :: r2 =>
          if e.toLower = 'e' then
            let ds2 := r2.takeWhile Char.isDigit
            if ds2.isEmpty then none else some (ds, ds2, r2.drop ds2.length)
          else none
        | [] => none
    else none
  | [] => none

/-- Consume a literal case-insensitively (`pat` given lowercase). -/
def litCI : List Char → List Char → Option (List Char)
  | [], l => some l
  | p :: ps, c :: cs => if c.toLower = p then litCI ps cs else none
  | _ :: _, [] => none

/-- Matcher at one position for `/season\s*(\d+)\s*episode\s*(\d+)/i`. -/
def matchR2At (l : List Char) : Option (List Char × List Char × List Char) := do
  let l ← litCI "season".data l
  let l := l.dropWhile isWS
  let ds := l.takeWhile Char.isDigit
  if ds.isEmpty then none
  else
    let l := (l.drop ds.length).dropWhile isWS
    let l ← litCI "episode".data l
    let l := l.dropWhile isWS
    let ds2 := l.takeWhile Char.isDigit
    if ds2.isEmpty then none else some (ds, ds2, l.drop ds2.length)

/-- Matcher at one position for `/(\d+)x(\d+)/i`. -/
def matchR3At (l : List Char) : Option (List Char × List Char × List Char) :=
  let ds := l.takeWhile Char.isDigit
  if ds.isEmpty then none
  else
    match l.drop ds.length with
    | c :: r =>
      if c.toLower = 'x' then
        let ds2 := r.takeWhile Char.isDigit
        if ds2.isEmpty then none else some (ds, ds2, r.drop ds2.length)
      else none
    | [] => none

/-- Leftmost match of an at-position matcher (`String.prototype.match`
with a non-global regex). -/
def findFirstM (m : List Char → Option (List Char × List Char × List Char)) :
    List Char → Option (List Char × List Char × List Char)
  | [] => m []
  | c :: t => (m (c :: t)).orElse (fun _ => findFirstM m t)

/-- Models `String.prototype.replace(regex, '')` for a non-global regex:
delete the leftmost match, keep everything else. -/
def replaceFirstM (m : List Char → Option (List Char × List Char × List Char)) :
    List Char → List Char
  | [] => []
  | c :: t =>
    match m (c :: t) with
    | some (_, _, rest) => rest
    | none => c :: replaceFirstM m t

/-- The `match(r1) || match(r2) || match(r3)` chain of
`generateSmartFilename`. -/
def jsMatchSE (l : List Char) : Option (List Char × List Char × List Char) :=
  (findFirstM matchR1At l).orElse fun _ =>
    (findFirstM matchR2At l).orElse fun _ => findFirstM matchR3At l

/-- JS `\w`: ASCII letters, digits and underscore. -/
def isWordChar (c : Char) : Bool := c.isAlphanum || c = '_'

/-- Models `String.prototype.replace(/\s+/g, ' ')`: collapse each maximal
whitespace run to one space (the flag records whether the previous
character was inside a run). -/
def collapseWSAux : Bool → List Char → List Char
  | _, [] => []
  | prevWS, c :: t =>
    if isWS c then
      if prevWS then collapseWSAux true t else ' ' :: collapseWSAux true t
    else c :: collapseWSAux false t

/-- Collapse whitespace runs to single spaces. -/
def collapseWS (l : List Char) : List Char := collapseWSAux false l

/-- Models `String.prototype.padStart n c`. -/
def padStartL (l : List Char) (n : Nat) (c : Char) : List Char :=
  if n ≤ l.length then l else List.replicate (n - l.length) c ++ l

/-- The filesystem sanitisation `replace(/[\/\\?%*:|"<>]/g, '-')`,
per character. -/
def sanitizeChar (c : Char) : Char :=
  if ['/', '\\', '?', '%', '*', ':', '|', '\"', '<', '>'].contains c then '-' else c

/-- Models `generateSmartFilename` (background.js lines 133-190) on character
data; `now` models `Date.now()`. -/
def gsfL (url title tabUrl : List Char) (now : Nat) : List Char :=
  let m0 := jsMatchSE title
  let m := match m0 with
    | some x => some x
    | none => if tabUrl.isEmpty then none else jsMatchSE tabUrl
  let season := match m with | some (s, _, _) => s | none => []
  let episode := match m with | some (_, e, _) => e | none => []
  let showName :=
    if title.isEmpty then "Unknown".data
    else
      let s1 := trimL (replaceFirstM matchR3At (replaceFirstM matchR2At
        (replaceFirstM matchR1At title)))
      let s2 := trimL (collapseWS (s1.map fun c =>
        if isWordChar c || isWS c then c else ' '))
      if s2.isEmpty then "Unknown".data else s2
  let filename := showName ++
    (if !season.isEmpty && !episode.isEmpty then
      '_' :: 'S' :: padStartL season 2 '0' ++ 'E' :: padStartL episode 2 '0'
    else '_' :: natStrL now)
  let urlExt := (splitOnC '?' ((splitOnC '.' url).getLastD [])).headD []
  let filename :=
    if !urlExt.isEmpty && subtitleExts.contains (lowerL urlExt) then
      filename ++ '.' :: urlExt
    else filename ++ ".vtt".data
  filename.map sanitizeChar

/-- Models `generateSmartFilename(url, title, tabUrl)` with `Date.now() = now`. -/
def generateSmartFilename (url title tabUrl : String) (now : Nat) : String :=
  ⟨gsfL url.data title.data tabUrl.data now⟩

/-- First occurrence of a substring: the remainder after it, if any. -/
def afterSubstr (pat : List Char) : List Char → Option (List Char)
  | [] => none
  | c :: t =>
    if pat.isPrefixOf (c :: t) then some ((c :: t).drop pat.length)
    else afterSubstr pat t

/-- Models `new URL(url).pathname` for absolute `scheme://host/path…` URLs
(`none` models the constructor throwing); the query/fragment part is
not part of the pathname. -/
def urlPathname (url : List Char) : Option (List Char) :=
  match afterSubstr "://".data url with
  | none => none
  | some rest =>
    some ((rest.dropWhile (fun c => c ≠ '/')).takeWhile fun c => c ≠ '?' && c ≠ '#')

/-- Models `generateFilename` (background.js lines 114-130) on character
data: last path segment, query stripped, with a subtitle extension
ensured. -/
def genFnL (url : List Char) (now : Nat) : List Char :=
  match urlPathname url with
  | none => "subtitle_".data ++ natStrL now ++ ".vtt".data
  | some path =>
    let filename := (splitOnC '?' ((splitOnC '/' path).getLastD [])).headD []
    let filename := if filename.isEmpty then "subtitle_".data ++ natStrL now else filename
    if subtitleExts.any (fun e => ('.' :: e).isSuffixOf (lowerL filename)) then filename
    else if containsL url "vtt" then filename ++ ".vtt".data
    else if containsL url "srt" then filename ++ ".srt".data
    else filename ++ ".vtt".data

/-- Models `generateFilename(url)` with `Date.now() = now`. -/
def generateFilename (url : String) (now : Nat) : String := ⟨genFnL url.data now⟩

example : generateSmartFilename "https://cdn.example.com/caption.vtt"
    "Breaking Bad S01E02 - Pilot" "https://site.example/watch" 5 =
    "Breaking Bad Pilot_S01E02.vtt" := by decide
example : generateSmartFilename "https://cdn.example.com/caption.vtt" "" "" 7 =
    "Unknown_7.vtt" := by decide
example : generateSmartFilename "https://c.com/a.srt?x=1" "Show 2x03" "" 5 =
    "Show_S02E03.srt" := by decide
example : generateFilename "https://c.com/p/track.vtt?l=en" 5 = "track.vtt" := by decide
example : generateFilename "https://c.com/" 5 = "subtitle_5.vtt" := by decide
example : generateFilename "not a url with vtt" 5 = "subtitle_5.vtt" := by rfl

/-- A stored capture record (`subtitles` entries in
`chrome.storage.local`).  The payload's base64 transport encoding is a
bijective re-encoding irrelevant to every claim (none inspects
`data`), so `data` holds the decoded text itself. -/
structure SubRecord where
  name : String
  data : String
  url : String
  timestamp : Nat
  size : Nat
  deriving DecidableEq, Repr

/-- The capture-store append step of `fetchAndCacheSubtitle`
(background.js lines 300-320): insert unless some existing record has
the same `name` or the same `url`. -/
def appendSubtitle (subtitles : List SubRecord) (r : SubRecord) : List SubRecord :=
  if subtitles.any (fun sub => sub.name == r.name || sub.url == r.url) then subtitles
  else subtitles ++ [r]

/-- The capture-store invariant: no two records share a `name`, no two
records share a `url`. -/
def storeInv (subtitles : List SubRecord) : Prop :=
  (subtitles.map SubRecord.name).Nodup ∧ (subtitles.map SubRecord.url).Nodup

instance (subtitles : List SubRecord) : Decidable (storeInv subtitles) := by
  unfold storeInv; infer_instance

/-- The process-wide mutable state of background.js: `headerCache`
(a `Map`, insertion-ordered, oldest first), `processedUrls` and
`failedUrls` (`Set`s, insertion-ordered), and the persisted
`subtitles` collection. -/
structure CacheState where
  headerCache : List (String × List (String × String))
  processedUrls : List String
  failedUrls : List String
  subtitles : List SubRecord
  deriving DecidableEq, Repr

/-- Models `cleanupCache` (background.js lines 15-25): when the header cache
holds more than 1000 entries, delete the keys of its first 200
entries; when the processed-URL set holds more than 500 entries,
delete its first 100 elements. -/
def cleanupCache (st : CacheState) : CacheState :=
  let st1 :=
    if 1000 < st.headerCache.length then
      let oldEntries := (st.headerCache.map Prod.fst).take 200
      { st with headerCache := st.headerCache.filter fun p => !oldEntries.contains p.1 }
    else st
  if 500 < st1.processedUrls.length then
    let oldUrls := st1.processedUrls.take 100
    { st1 with processedUrls := st1.processedUrls.filter fun u => !oldUrls.contains u }
  else st1

/-- The body of the periodic `setInterval` sweep (background.js lines
544-550): `cleanupCache`, then clear the negative cache entirely once
it exceeds 100 entries. -/
def periodicSweep (st : CacheState) : CacheState :=
  let st1 := cleanupCache st
  if 100 < st1.failedUrls.length then { st1 with failedUrls := [] } else st1

/-- The dedup key of a URL: `url.split('?')[0]`. -/
def urlKeyOf (url : String) : String := ⟨(splitOnC '?' url.data).headD []⟩

/-- The outcome of one `fetchWithStrategies(url, headers)` call, as
seen by `fetchAndCacheSubtitle`: a readable ok response with the given
body text, a cross-origin opaque response, or a raised error carrying
`error.message`.  (An ok-but-empty body is `ok ""`; the caller itself
turns it into the `Empty response` error.) -/
inductive FetchOutcome where
  | ok (body : String)
  | opaqueResp
  | err (msg : String)
  deriving DecidableEq, Repr

/-- The `{url, title}` tab context passed to `fetchAndCacheSubtitle`. -/
structure TabInfo where
  title : String
  url : String
  deriving DecidableEq, Repr

/-- How one invocation of `fetchAndCacheSubtitle` ended. -/
inductive RunOutcome where
  /-- Entry guard hit: the dedup key was already processed or failed. -/
  | skipped
  /-- Case `response.type` is the cross-origin-opaque variant: silent return. -/
  | opaqueStop
  /-- Case where `isValidSubtitleContent` said no: silent return. -/
  | validationReject
  /-- A new record was appended to the store. -/
  | stored
  /-- A record with the same name or url already existed. -/
  | duplicate
  /-- The catch branch ran and rescheduled the operation. -/
  | retryScheduled
  /-- The catch branch ran and added the key to `failedUrls`. -/
  | negativeCached
  deriving DecidableEq, Repr

/-- The observable result of running `fetchAndCacheSubtitle` to
quiescence: the final state, the number of `fetchWithStrategies`
invocations (network attempts), the `setTimeout` delays of the
scheduled retries, and the per-invocation outcomes (head = the
original invocation). -/
structure RunResult where
  state : CacheState
  fetches : Nat
  delays : List Nat
  outcomes : List RunOutcome
  deriving DecidableEq, Repr

/-- Models `const MAX_RETRIES = 2`. -/
def MAX_RETRIES : Nat := 2

/-- Models `fetchAndCacheSubtitle` (background.js lines 252-334), run to
quiescence.  `oracle rc` is the outcome of the `fetchWithStrategies`
call made by the invocation with retry count `rc`; `now` models
`Date.now()`.  A scheduled retry (`setTimeout`) is executed
immediately after the scheduling invocation: the host is
single-threaded and no claim interleaves other events before the
timer fires.  `fuel` bounds the recursion depth; the entry point
passes `MAX_RETRIES + 1`, which the `retryCount < MAX_RETRIES` guard
makes sufficient, so the fuel-exhausted branch is unreachable from the
entry point. -/
def fetchAndCacheAux (oracle : Nat → FetchOutcome) (now : Nat) :
    Nat → CacheState → String → TabInfo → Nat → RunResult
  | 0, st, _, _, _ => ⟨st, 0, [], []⟩
  | fuel + 1, st, url, tabInfo, retryCount =>
    let urlKey := urlKeyOf url
    if urlKey ∈ st.processedUrls ∨ urlKey ∈ st.failedUrls then ⟨st, 0, [], [.skipped]⟩
    else
      let st := { st with processedUrls := st.processedUrls ++ [urlKey] }
      match oracle retryCount with
      | .opaqueResp => ⟨st, 1, [], [.opaqueStop]⟩
      | .ok body =>
        if body.length = 0 then
          -- `throw new Error('Empty response')`, caught below
          if retryCount < MAX_RETRIES && !(containsS "Empty response" "no-cors") then
            let r := fetchAndCacheAux oracle now fuel st url tabInfo (retryCount + 1)
            ⟨r.state, 1 + r.fetches, 1000 * (retryCount + 1) :: r.delays,
              .retryScheduled :: r.outcomes⟩
          else ⟨{ st with failedUrls := st.failedUrls ++ [urlKey] }, 1, [], [.negativeCached]⟩
        else
          let firstChunk : String := ⟨body.data.take 1000⟩
          if !isValidSubtitleContent firstChunk url then ⟨st, 1, [], [.validationReject]⟩
          else
            let filename :=
              if !tabInfo.title.isEmpty || !tabInfo.url.isEmpty then
                generateSmartFilename url tabInfo.title tabInfo.url now
              else generateFilename url now
            if st.subtitles.any (fun sub => sub.name == filename || sub.url == url) then
              ⟨st, 1, [], [.duplicate]⟩
            else
              ⟨{ st with subtitles :=
                  st.subtitles ++ [⟨filename, body, url, now, body.length⟩] },
                1, [], [.stored]⟩
      | .err msg =>
        if retryCount < MAX_RETRIES && !(containsS msg "no-cors") then
          let r := fetchAndCacheAux oracle now fuel st url tabInfo (retryCount + 1)
          ⟨r.state, 1 + r.fetches, 1000 * (retryCount + 1) :: r.delays,
            .retryScheduled :: r.outcomes⟩
        else ⟨{ st with failedUrls := st.failedUrls ++ [urlKey] }, 1, [], [.negativeCached]⟩

/-- Entry point: one observed capture attempt for `url`, run to
quiescence (the original invocation plus any retries it schedules). -/
def fetchAndCacheSubtitle (oracle : Nat → FetchOutcome) (now : Nat)
    (st : CacheState) (url : String) (tabInfo : TabInfo) (retryCount : Nat) : RunResult :=
  fetchAndCacheAux oracle now (MAX_RETRIES + 1) st url tabInfo retryCount

/-- The empty process-start state. -/
def initialState : CacheState := ⟨[], [], [], []⟩

example :
    fetchAndCacheSubtitle (fun _ => .err "HTTP 403: Forbidden") 0 initialState
      "https://example.com/sub.vtt?lang=en" ⟨"", ""⟩ 0 =
    ⟨⟨[], ["https://example.com/sub.vtt"], [], []⟩, 1, [1000],
      [.retryScheduled, .skipped]⟩ := by decide

example :
    fetchAndCacheSubtitle (fun _ => .err "blocked by no-cors policy") 0 initialState
      "https://example.com/sub.vtt" ⟨"", ""⟩ 0 =
    ⟨⟨[], ["https://example.com/sub.vtt"], ["https://example.com/sub.vtt"], []⟩,
      1, [], [.negativeCached]⟩ := by decide

example :
    (fetchAndCacheSubtitle (fun _ => .ok "WEBVTT\n\n00:00:01.000 --> 00:00:02.000\nHi") 9
      initialState "https://example.com/sub.vtt" ⟨"", ""⟩ 0).state.subtitles =
    [⟨"sub.vtt", "WEBVTT\n\n00:00:01.000 --> 00:00:02.000\nHi",
      "https://example.com/sub.vtt", 9, 40⟩] := by decide

example :
    fetchAndCacheSubtitle (fun _ => .opaqueResp) 0 initialState
      "https://example.com/sub.vtt" ⟨"", ""⟩ 0 =
    ⟨⟨[], ["https://example.com/sub.vtt"], [], []⟩, 1, [], [.opaqueStop]⟩ := by decide

example : isSubtitleUrl "https://a.com/movie.vtt" = true := by decide

/-! ## Shared lemmas -/

theorem scanB_of_here {p : List Char → Bool} {l : List Char} (h : p l = true) :
    scanB p l = true := by
  cases l <;> simp [scanB, h]

theorem scanB_append_right {p : List Char → Bool} (l₁ : List Char) {l₂ : List Char}
    (h : p l₂ = true) : scanB p (l₁ ++ l₂) = true := by
  induction l₁ with
  | nil => exact scanB_of_here h
  | cons c t ih => simp [scanB, ih]

theorem isPrefixOf_append_self (e r : List Char) : e.isPrefixOf (e ++ r) = true := by
  induction e with
  | nil => simp [List.isPrefixOf]
  | cons c t ih => simp [List.isPrefixOf, ih]

/-- The entry guard of `fetchAndCacheSubtitle`: a dedup key already in
`processedUrls` or `failedUrls` makes the whole call a no-op with zero
fetches. -/
theorem run_skip (oracle : Nat → FetchOutcome) (now : Nat) (st : CacheState)
    (url : String) (tabInfo : TabInfo) (retryCount : Nat)
    (h : urlKeyOf url ∈ st.processedUrls ∨ urlKeyOf url ∈ st.failedUrls) :
    fetchAndCacheSubtitle oracle now st url tabInfo retryCount = ⟨st, 0, [], [.skipped]⟩ := by
  simp only [fetchAndCacheSubtitle, MAX_RETRIES, fetchAndCacheAux]
  rw [if_pos h]

/-- Deleting the keys of the first `n` entries of a collection with
pairwise-distinct keys removes exactly its first `n` entries (the
`Array.from(keys).slice(0, n)`-then-`delete` idiom of `cleanupCache`
on an insertion-ordered `Map`/`Set`). -/
theorem filter_keys_take_eq_drop {α β : Type} [DecidableEq β] (f : α → β) :
    ∀ (l : List α) (n : Nat), (l.map f).Nodup →
      l.filter (fun a => !((l.map f).take n).contains (f a)) = l.drop n := by
  intro l
  induction l with
  | nil => intro n _; simp
  | cons a t ih =>
    intro n hnd
    cases n with
    | zero => simp
    | succ m =>
      simp only [List.map_cons, List.nodup_cons] at hnd
      simp only [List.map_cons, List.take_succ_cons, List.drop_succ_cons, List.filter_cons]
      rw [if_neg (by simp)]
      have hcong : ∀ x ∈ t,
          (!((f a :: (t.map f).take m).contains (f x)) : Bool) =
          !((t.map f).take m).contains (f x) := by
        intro x hx
        have hne : f x ≠ f a := fun heq => hnd.1 (heq ▸ List.mem_map_of_mem f hx)
        simp [hne]
      rw [List.filter_congr hcong]
      exact ih m hnd.2

/-- Specialisation of the eviction lemma to a set (the
`processedUrls` trim). -/
theorem filter_take_eq_drop {α : Type} [DecidableEq α] (l : List α) (n : Nat)
    (h : l.Nodup) : l.filter (fun a => !(l.take n).contains a) = l.drop n := by
  have := filter_keys_take_eq_drop id l n (by simpa using h)
  simpa using this

theorem lowerL_append (a b : List Char) : lowerL (a ++ b) = lowerL a ++ lowerL b :=
  List.map_append Char.toLower a b

/-- At a position where the text reads `.` ++ `e` ++ `rest` with
`e` in the alternation and `rest` an admissible terminator, the
extension matcher fires. -/
theorem dotExtAt_head (exts : List (List Char)) (e r : List Char)
    (he : e ∈ exts) (ht : extTermOk r = true) :
    dotExtAt exts ('.' :: (e ++ r)) = true := by
  simp only [dotExtAt]
  refine List.any_eq_true.mpr ⟨e, he, ?_⟩
  rw [isPrefixOf_append_self, List.drop_left, ht]
  rfl

/-- Lifting `dotExtAt_head` through lowercasing and an arbitrary
prefix: any URL whose data reads `pre ++ "." ++ e ++ rest` (with `e`
lowercase and `rest` empty or a query) matches the extension scan. -/
theorem dotExtScan_of_suffix (exts : List (List Char)) (pre e rest : List Char)
    (he : e ∈ exts) (hl : lowerL e = e) (ht : extTermOk (lowerL rest) = true) :
    dotExtScan exts (lowerL (pre ++ '.' :: (e ++ rest))) = true := by
  rw [lowerL_append]
  apply scanB_append_right
  have hstep : lowerL ('.' :: (e ++ rest)) = '.' :: (e ++ lowerL rest) := by
    show Char.toLower '.' :: lowerL (e ++ rest) = _
    rw [lowerL_append, hl]
    rfl
  rw [hstep]
  exact dotExtAt_head exts e (lowerL rest) he ht

/-- A URL whose data ends in `.` ++ `e`(++ terminator) for `e` in the
excluded-extension alternation is classified `false`. -/
theorem isSubtitleUrl_false_of_badext (url : String) (s e rest : List Char)
    (h : url.data = s ++ '.' :: (e ++ rest)) (he : e ∈ nonSubtitleExts)
    (hl : lowerL e = e) (ht : extTermOk (lowerL rest) = true) :
    isSubtitleUrl url = false := by
  have hbad := dotExtScan_of_suffix nonSubtitleExts s e rest he hl ht
  simp only [isSubtitleUrl]
  rw [h]
  simp [hbad]

/-- A URL whose data ends in `.` ++ `e`(++ terminator) for a subtitle
extension `e`, and which triggers neither the excluded-extension
pattern nor the excluded-substring list, is classified `true`. -/
theorem isSubtitleUrl_true_of_goodext (url : String) (s e rest : List Char)
    (h : url.data = s ++ '.' :: (e ++ rest)) (he : e ∈ subtitleExts)
    (hl : lowerL e = e) (ht : extTermOk (lowerL rest) = true)
    (hbadext : dotExtScan nonSubtitleExts (lowerL url.data) = false)
    (had : adTrackingScan (lowerL url.data) = false) :
    isSubtitleUrl url = true := by
  have hgood := dotExtScan_of_suffix subtitleExts s e rest he hl ht
  rw [h] at hbadext had
  simp only [isSubtitleUrl]
  rw [h]
  simp [hbadext, had, hgood]

theorem sanitize_digitChar (k : Nat) (h : k < 10) :
    sanitizeChar (Nat.digitChar k) = Nat.digitChar k := by
  interval_cases k <;> decide

/-- Decimal numerals pass the filesystem sanitisation unchanged. -/
theorem map_sanitize_natDigits (fuel : Nat) :
    ∀ n : Nat, List.map sanitizeChar (natDigitsAux fuel n) = natDigitsAux fuel n := by
  induction fuel with
  | zero => intro n; rfl
  | succ f ih =>
    intro n
    unfold natDigitsAux
    by_cases h : n < 10
    · simp [h, sanitize_digitChar n h]
    · simp [h, List.map_append, ih (n / 10),
        sanitize_digitChar (n % 10) (Nat.mod_lt n (by norm_num))]

/-- The opaque-response path of `fetchAndCacheSubtitle`: one fetch,
then a silent return with only the dedup key recorded as processed. -/
theorem opaqueStepEq (oracle : Nat → FetchOutcome) (now : Nat) (st : CacheState)
    (url : String) (tabInfo : TabInfo)
    (h1 : urlKeyOf url ∉ st.processedUrls) (h2 : urlKeyOf url ∉ st.failedUrls)
    (hop : oracle 0 = .opaqueResp) :
    fetchAndCacheSubtitle oracle now st url tabInfo 0 =
      ⟨{ st with processedUrls := st.processedUrls ++ [urlKeyOf url] }, 1, [],
        [.opaqueStop]⟩ := by
  simp only [fetchAndCacheSubtitle, MAX_RETRIES, fetchAndCacheAux]
  rw [if_neg (not_or.mpr ⟨h1, h2⟩), hop]

/-! ## Claim theorems -/

/-- The sweep equation: eviction drops exactly the oldest entries. -/
theorem periodicSweep_eq (st : CacheState)
    (hh : (st.headerCache.map Prod.fst).Nodup) (hp : st.processedUrls.Nodup) :
    periodicSweep st =
      ⟨if 1000 < st.headerCache.length then st.headerCache.drop 200 else st.headerCache,
       if 500 < st.processedUrls.length then st.processedUrls.drop 100 else st.processedUrls,
       if 100 < st.failedUrls.length then [] else st.failedUrls,
       st.subtitles⟩ := by
  have e1 := filter_keys_take_eq_drop Prod.fst st.headerCache 200 hh
  have e2 := filter_take_eq_drop st.processedUrls 100 hp
  simp at e1 e2
  unfold periodicSweep cleanupCache
  by_cases hH : 1000 < st.headerCache.length <;>
    by_cases hP : 500 < st.processedUrls.length <;>
    by_cases hF : 100 < st.failedUrls.length <;>
    simp [hH, hP, hF, e1, e2]

/-- C6: on title `Breaking Bad S01E02 - Pilot` and a source URL ending
in `caption.vtt`, `generateSmartFilename` yields a name containing the
normalized show name `Breaking Bad`, containing `S01E02`, and ending
in `.vtt`; on the empty title and empty page URL it yields exactly
`Unknown_` ++ the decimal `Date.now()` timestamp ++ `.vtt`. -/
theorem smart_filename_examples :
    (∀ now : Nat,
      containsS (generateSmartFilename "https://cdn.example.com/caption.vtt"
        "Breaking Bad S01E02 - Pilot" "https://site.example/watch" now)
        "Breaking Bad" = true ∧
      containsS (generateSmartFilename "https://cdn.example.com/caption.vtt"
        "Breaking Bad S01E02 - Pilot" "https://site.example/watch" now)
        "S01E02" = true ∧
      endsWithS (generateSmartFilename "https://cdn.example.com/caption.vtt"
        "Breaking Bad S01E02 - Pilot" "https://site.example/watch" now)
        ".vtt" = true) ∧
    (∀ now : Nat,
      generateSmartFilename "https://cdn.example.com/caption.vtt" "" "" now =
        "Unknown_" ++ natStr now ++ ".vtt") := by
  constructor
  · intro now
    exact ⟨rfl, rfl, rfl⟩
  · intro now
    show (⟨List.map sanitizeChar (("Unknown".data ++ '_' :: natStrL now) ++
      ('.' :: "vtt".data))⟩ : String) = ⟨("Unknown_".data ++ natStrL now) ++ ".vtt".data⟩
    refine congrArg String.mk ?_
    simp only [List.map_append, List.map_cons, natStrL, map_sanitize_natDigits]
    simp [show sanitizeChar 'U' = 'U' from by decide,
      show sanitizeChar 'n' = 'n' from by decide,
      show sanitizeChar 'k' = 'k' from by decide,
      show sanitizeChar 'o' = 'o' from by decide,
      show sanitizeChar 'w' = 'w' from by decide,
      show sanitizeChar '_' = '_' from by decide,
      show sanitizeChar '.' = '.' from by decide,
      show sanitizeChar 'v' = 'v' from by decide,
      show sanitizeChar 't' = 't' from by decide]

/-- C7: a sweep (`cleanupCache` plus the interval body) removes
exactly the 200 oldest-inserted header-cache entries when that cache
exceeds 1000 entries, exactly the 100 oldest processed-URL keys when
that set exceeds 500 entries, and empties `failedUrls` completely once
it exceeds 100 entries; at or below each ceiling the corresponding
collection is untouched.  (The `Nodup` hypotheses state that the lists
model a JS `Map`/`Set`, whose keys are distinct.) -/
theorem periodic_sweep_spec (st : CacheState)
    (hh : (st.headerCache.map Prod.fst).Nodup) (hp : st.processedUrls.Nodup) :
    periodicSweep st =
      ⟨if 1000 < st.headerCache.length then st.headerCache.drop 200 else st.headerCache,
       if 500 < st.processedUrls.length then st.processedUrls.drop 100 else st.processedUrls,
       if 100 < st.failedUrls.length then [] else st.failedUrls,
       st.subtitles⟩ :=
  periodicSweep_eq st hh hp

theorem periodic_sweep_spec_witness :
    periodicSweep ⟨[("ha", []), ("hb", [])], ["u", "v"], ["w"], []⟩ =
      ⟨[("ha", []), ("hb", [])], ["u", "v"], ["w"], []⟩ :=
  periodic_sweep_spec ⟨[("ha", []), ("hb", [])], ["u", "v"], ["w"], []⟩
    (by decide) (by decide)

/-- C2 (amended): a URL ending in a subtitle extension (optionally
followed by a query string) is classified `true` PROVIDED it matches
neither the excluded-extension pattern nor any excluded substring
(`google-analytics`, `doubleclick`, `analytics`, `tracking`,
`adserver`, `webpack`, `chunk`, `polyfill`); and every URL ending in
`.js`, `.json`, `.css` or `.html` (optionally followed by a query
string) is classified `false`, whatever else it contains. -/
theorem url_classifier_ext_rules :
    (∀ (url : String) (s ext q : List Char), ext ∈ subtitleExts →
      url.data = s ++ '.' :: ext ∨ url.data = s ++ '.' :: ext ++ '?' :: q →
      dotExtScan nonSubtitleExts (lowerL url.data) = false →
      adTrackingScan (lowerL url.data) = false →
      isSubtitleUrl url = true) ∧
    (∀ (url : String) (s ext q : List Char),
      ext ∈ ["js", "json", "css", "html"].map String.data →
      url.data = s ++ '.' :: ext ∨ url.data = s ++ '.' :: ext ++ '?' :: q →
      isSubtitleUrl url = false) := by
  constructor
  · intro url s ext q hext hurl hbadext had
    have hl : lowerL ext = ext := by fin_cases hext <;> decide
    rcases hurl with h | h
    · exact isSubtitleUrl_true_of_goodext url s ext []
        (by simpa using h) hext hl (by decide) hbadext had
    · exact isSubtitleUrl_true_of_goodext url s ext ('?' :: q)
        (by simpa using h) hext hl rfl hbadext had
  · intro url s ext q hext hurl
    have hmem : ext ∈ nonSubtitleExts := by fin_cases hext <;> decide
    have hl : lowerL ext = ext := by fin_cases hext <;> decide
    rcases hurl with h | h
    · exact isSubtitleUrl_false_of_badext url s ext [] (by simpa using h) hmem hl (by decide)
    · exact isSubtitleUrl_false_of_badext url s ext ('?' :: q) (by simpa using h) hmem hl rfl

theorem url_classifier_ext_rules_witness :
    isSubtitleUrl "https://a.com/movie.vtt" = true ∧
    isSubtitleUrl "https://a.com/sub/movie.srt?lang=en" = true ∧
    isSubtitleUrl "https://a.com/subtitle/app.js" = false ∧
    isSubtitleUrl "https://a.com/subtitle/data.json?v=2" = false :=
  ⟨url_classifier_ext_rules.1 "https://a.com/movie.vtt" "https://a.com/movie".data
      "vtt".data [] (by decide) (Or.inl (by decide)) (by decide) (by decide),
    url_classifier_ext_rules.1 "https://a.com/sub/movie.srt?lang=en"
      "https://a.com/sub/movie".data "srt".data "lang=en".data (by decide)
      (Or.inr (by decide)) (by decide) (by decide),
    url_classifier_ext_rules.2 "https://a.com/subtitle/app.js"
      "https://a.com/subtitle/app".data "js".data [] (by decide) (Or.inl (by decide)),
    url_classifier_ext_rules.2 "https://a.com/subtitle/data.json?v=2"
      "https://a.com/subtitle/data".data "json".data "v=2".data (by decide)
      (Or.inr (by decide))⟩

/-- C2 (counterexample to the claim as stated): the claim's first half
is not true of every URL ending in a subtitle extension — the
excluded-substring pre-filter wins.  `https://a.com/chunk.vtt` ends in
`.vtt` yet `isSubtitleUrl` returns `false`, because the URL contains
`chunk`. -/
theorem url_classifier_ext_counterexample :
    "https://a.com/chunk.vtt".data = "https://a.com/chunk".data ++ '.' :: "vtt".data ∧
    isSubtitleUrl "https://a.com/chunk.vtt" = false := by
  constructor <;> decide

/-- C10: `isValidSubtitleContent` does not depend on its `url`
argument: the source lowercases the URL but never reads it, so any two
URLs give the same verdict for the same content sample. -/
theorem validator_ignores_url (content u1 u2 : String) :
    isValidSubtitleContent content u1 = isValidSubtitleContent content u2 := rfl

/-- C5: the rejection patterns of `isValidSubtitleContent` are checked
before any acceptance signature and any match forces `false`, whatever
else the content contains (even a leading `WEBVTT`). -/
theorem validator_rejection_short_circuits (content url : String)
    (h : hasRejectPattern content = true) :
    isValidSubtitleContent content url = false := by
  simp [isValidSubtitleContent, h]

theorem validator_rejection_short_circuits_witness :
    hasRejectPattern "WEBVTT\n\nself.webpackChunk = [];" = true ∧
    isValidSubtitleContent "WEBVTT\n\nself.webpackChunk = [];" "https://a.com/s.vtt" = false :=
  ⟨by decide, validator_rejection_short_circuits _ "https://a.com/s.vtt" (by decide)⟩

/-- C1 (code behaviour at the failing input): for a URL whose fetch
always fails with an ordinary HTTP error, `fetchAndCacheSubtitle`
performs exactly ONE `fetchWithStrategies` attempt, schedules one
1000 ms retry whose invocation exits at the `processedUrls` entry
guard without fetching, and never adds the dedup key to `failedUrls` —
contradicting the claimed three total attempts followed by
negative-cache insertion. -/
theorem always_failing_fetch_single_attempt :
    fetchAndCacheSubtitle (fun _ => .err "HTTP 403: Forbidden") 0 initialState
      "https://example.com/sub.vtt?lang=en" ⟨"", ""⟩ 0 =
    ⟨⟨[], ["https://example.com/sub.vtt"], [], []⟩, 1, [1000],
      [.retryScheduled, .skipped]⟩ := by decide

/-- C3: the capture store append is a no-op when an existing record
shares the new record's `name` or `url`; it preserves the
no-duplicate-names/no-duplicate-urls invariant; and appending two
records with the same `url` (whatever their names) to an empty store
leaves exactly one record. -/
theorem capture_store_dedup :
    (∀ (subtitles : List SubRecord) (r s : SubRecord), s ∈ subtitles →
      s.name = r.name ∨ s.url = r.url → appendSubtitle subtitles r = subtitles) ∧
    (∀ (subtitles : List SubRecord) (r : SubRecord), storeInv subtitles →
      storeInv (appendSubtitle subtitles r)) ∧
    (∀ r1 r2 : SubRecord, r2.url = r1.url →
      appendSubtitle (appendSubtitle [] r1) r2 = [r1]) := by
  refine ⟨?_, ?_, ?_⟩
  · intro subs r s hs h
    unfold appendSubtitle
    rw [if_pos]
    rw [List.any_eq_true]
    exact ⟨s, hs, by rcases h with h | h <;> simp [h]⟩
  · intro subs r hinv
    unfold appendSubtitle
    split
    · exact hinv
    · next hany =>
      have h' : ∀ s ∈ subs, s.name ≠ r.name ∧ s.url ≠ r.url := by
        intro s hs
        constructor <;> intro heq <;>
          exact hany (List.any_eq_true.mpr ⟨s, hs, by simp [heq]⟩)
      obtain ⟨hn, hu⟩ := hinv
      constructor
      · rw [List.map_append]
        refine List.nodup_append.mpr ⟨hn, List.nodup_singleton _, ?_⟩
        intro x hx hx2
        simp only [List.map_cons, List.map_nil, List.mem_singleton] at hx2
        obtain ⟨s, hs, rfl⟩ := List.mem_map.mp hx
        exact (h' s hs).1 hx2
      · rw [List.map_append]
        refine List.nodup_append.mpr ⟨hu, List.nodup_singleton _, ?_⟩
        intro x hx hx2
        simp only [List.map_cons, List.map_nil, List.mem_singleton] at hx2
        obtain ⟨s, hs, rfl⟩ := List.mem_map.mp hx
        exact (h' s hs).2 hx2
  · intro r1 r2 h
    simp [appendSubtitle, h]

theorem capture_store_dedup_witness :
    appendSubtitle [⟨"a.vtt", "d1", "https://u/1", 0, 2⟩] ⟨"b.vtt", "d2", "https://u/1", 1, 2⟩ =
      [⟨"a.vtt", "d1", "https://u/1", 0, 2⟩] ∧
    storeInv (appendSubtitle [⟨"a.vtt", "d1", "https://u/1", 0, 2⟩]
      ⟨"b.vtt", "d2", "https://u/2", 1, 2⟩) ∧
    appendSubtitle (appendSubtitle [] ⟨"a.vtt", "d1", "https://u/1", 0, 2⟩)
      ⟨"b.vtt", "d2", "https://u/1", 1, 2⟩ = [⟨"a.vtt", "d1", "https://u/1", 0, 2⟩] :=
  ⟨capture_store_dedup.1 _ ⟨"b.vtt", "d2", "https://u/1", 1, 2⟩
      ⟨"a.vtt", "d1", "https://u/1", 0, 2⟩ (by decide) (by decide),
    capture_store_dedup.2.1 _ ⟨"b.vtt", "d2", "https://u/2", 1, 2⟩ (by decide),
    capture_store_dedup.2.2 ⟨"a.vtt", "d1", "https://u/1", 0, 2⟩
      ⟨"b.vtt", "d2", "https://u/1", 1, 2⟩ (by decide)⟩

/-- C4: a capture attempt whose dedup key (URL with query stripped) is
already in `processedUrls` or `failedUrls` performs zero network
requests and leaves the entire state unchanged; in particular a key in
the negative cache suppresses every subsequent fetch of that URL until
the cache is cleared. -/
theorem dedup_guard_skips (oracle : Nat → FetchOutcome) (now : Nat) (st : CacheState)
    (url : String) (tabInfo : TabInfo) (retryCount : Nat)
    (h : urlKeyOf url ∈ st.processedUrls ∨ urlKeyOf url ∈ st.failedUrls) :
    fetchAndCacheSubtitle oracle now st url tabInfo retryCount = ⟨st, 0, [], [.skipped]⟩ :=
  run_skip oracle now st url tabInfo retryCount h

theorem dedup_guard_skips_witness :
    fetchAndCacheSubtitle (fun _ => .ok "WEBVTT") 0
      ⟨[], [], ["https://example.com/sub.vtt"], []⟩
      "https://example.com/sub.vtt?lang=en" ⟨"", ""⟩ 0 =
    ⟨⟨[], [], ["https://example.com/sub.vtt"], []⟩, 0, [], [.skipped]⟩ :=
  dedup_guard_skips _ 0 _ "https://example.com/sub.vtt?lang=en" ⟨"", ""⟩ 0
    (Or.inr (by decide))

/-- C8 (amended): a cross-origin-opaque response makes
`fetchAndCacheSubtitle` return after the single fetch without storing
a record, without scheduling a retry and without touching `failedUrls`;
the dedup key stays in `processedUrls`, and every capture attempt made
while the key is in `processedUrls` performs zero network requests.
(The source's `cleanupCache` can later evict the key, so the
suppression lasts only while the key remains in the set, not
unconditionally for the whole process lifetime.) -/
theorem opaque_response_silent_drop (oracle : Nat → FetchOutcome) (now : Nat)
    (st : CacheState) (url : String) (tabInfo : TabInfo)
    (h1 : urlKeyOf url ∉ st.processedUrls) (h2 : urlKeyOf url ∉ st.failedUrls)
    (hop : oracle 0 = .opaqueResp) :
    fetchAndCacheSubtitle oracle now st url tabInfo 0 =
      ⟨{ st with processedUrls := st.processedUrls ++ [urlKeyOf url] }, 1, [], [.opaqueStop]⟩ ∧
    ∀ (oracle2 : Nat → FetchOutcome) (now2 : Nat) (st2 : CacheState)
      (tab2 : TabInfo) (rc2 : Nat), urlKeyOf url ∈ st2.processedUrls →
      fetchAndCacheSubtitle oracle2 now2 st2 url tab2 rc2 = ⟨st2, 0, [], [.skipped]⟩ := by
  constructor
  · exact opaqueStepEq oracle now st url tabInfo h1 h2 hop
  · intro oracle2 now2 st2 tab2 rc2 hmem
    exact run_skip oracle2 now2 st2 url tab2 rc2 (Or.inl hmem)

theorem opaque_response_silent_drop_witness :
    fetchAndCacheSubtitle (fun _ => .opaqueResp) 3 initialState
      "https://e.com/a.vtt?x=1" ⟨"t", "https://w"⟩ 0 =
      ⟨⟨[], ["https://e.com/a.vtt"], [], []⟩, 1, [], [.opaqueStop]⟩ ∧
    fetchAndCacheSubtitle (fun _ => .err "HTTP 500") 4
      ⟨[], ["https://e.com/a.vtt"], [], []⟩ "https://e.com/a.vtt?x=1" ⟨"", ""⟩ 0 =
      ⟨⟨[], ["https://e.com/a.vtt"], [], []⟩, 0, [], [.skipped]⟩ :=
  ⟨(opaque_response_silent_drop _ 3 initialState "https://e.com/a.vtt?x=1"
      ⟨"t", "https://w"⟩ (by decide) (by decide) rfl).1,
    (opaque_response_silent_drop (fun _ => .opaqueResp) 3 initialState
      "https://e.com/a.vtt?x=1" ⟨"t", "https://w"⟩ (by decide) (by decide) rfl).2
      _ 4 _ ⟨"", ""⟩ 0 (by decide)⟩

set_option maxRecDepth 8000 in
/-- C8 (counterexample to the claim as stated): the key does NOT
suppress re-fetching for the whole process lifetime.  Concretely:
after the URL's key was processed (e.g. via an opaque response) and
500 further URLs were processed, one periodic sweep evicts the key
(`cleanupCache` drops the 100 oldest of the now-501-element set), and
the next capture attempt for the same URL fetches again (1 network
request instead of the claimed 0). -/
theorem opaque_response_refetched_after_sweep :
    urlKeyOf "https://e.com/a.vtt" ∈
      ("https://e.com/a.vtt" ::
        (List.range 500).map fun i => (⟨List.replicate (i + 1) 'a'⟩ : String)) ∧
    (fetchAndCacheSubtitle (fun _ => .opaqueResp) 0
      (periodicSweep ⟨[],
        "https://e.com/a.vtt" ::
          (List.range 500).map fun i => (⟨List.replicate (i + 1) 'a'⟩ : String),
        [], []⟩)
      "https://e.com/a.vtt" ⟨"", ""⟩ 0).fetches = 1 := by
  have hkey : ("https://e.com/a.vtt" : String) ∉
      (List.range 500).map fun i => (⟨List.replicate (i + 1) 'a'⟩ : String) := by
    intro h
    obtain ⟨i, _, heq⟩ := List.mem_map.mp h
    have hlen := congrArg (fun s : String => s.data.length) heq
    simp at hlen
    have : i = 18 := by omega
    subst this
    exact absurd heq (by decide)
  have hnodup : ("https://e.com/a.vtt" ::
      (List.range 500).map fun i => (⟨List.replicate (i + 1) 'a'⟩ : String)).Nodup := by
    refine List.nodup_cons.mpr ⟨hkey, ?_⟩
    refine List.Nodup.map ?_ (List.nodup_range 500)
    intro a b hab
    have := congrArg (fun s : String => s.data.length) hab
    simp only [List.length_replicate] at this
    omega
  have hsweep : periodicSweep ⟨[],
      "https://e.com/a.vtt" ::
        (List.range 500).map fun i => (⟨List.replicate (i + 1) 'a'⟩ : String),
      [], []⟩ =
      ⟨[], ("https://e.com/a.vtt" ::
        (List.range 500).map fun i => (⟨List.replicate (i + 1) 'a'⟩ : String)).drop 100,
        [], []⟩ := by
    rw [periodicSweep_eq _ (by simp) hnodup]
    simp
  have hout : urlKeyOf "https://e.com/a.vtt" ∉
      ("https://e.com/a.vtt" ::
        (List.range 500).map fun i => (⟨List.replicate (i + 1) 'a'⟩ : String)).drop 100 := by
    rw [List.drop_succ_cons]
    intro h
    exact hkey (List.mem_of_mem_drop h)
  refine ⟨by decide, ?_⟩
  rw [hsweep]
  rw [opaqueStepEq (fun _ => .opaqueResp) 0
    ⟨[], ("https://e.com/a.vtt" ::
      (List.range 500).map fun i => (⟨List.replicate (i + 1) 'a'⟩ : String)).drop 100,
      [], []⟩ "https://e.com/a.vtt" ⟨"", ""⟩ hout (List.not_mem_nil _) rfl]

/-- C9: an ok response with an empty body raises `Empty response`
inside the `try`, so the call takes the failure-handling branch (it
schedules the 1000 ms retry, which the entry guard then skips), stores
no record, and never reaches content validation. -/
theorem empty_body_is_fetch_failure (oracle : Nat → FetchOutcome) (now : Nat)
    (st : CacheState) (url : String) (tabInfo : TabInfo)
    (h1 : urlKeyOf url ∉ st.processedUrls) (h2 : urlKeyOf url ∉ st.failedUrls)
    (hok : oracle 0 = .ok "") :
    fetchAndCacheSubtitle oracle now st url tabInfo 0 =
      ⟨{ st with processedUrls := st.processedUrls ++ [urlKeyOf url] }, 1, [1000],
        [.retryScheduled, .skipped]⟩ := by
  simp only [fetchAndCacheSubtitle, MAX_RETRIES, fetchAndCacheAux]
  rw [if_neg (not_or.mpr ⟨h1, h2⟩), hok]
  simp
  decide

theorem empty_body_is_fetch_failure_witness :
    fetchAndCacheSubtitle (fun _ => .ok "") 4 initialState
      "https://example.com/sub.vtt?lang=en" ⟨"t", "https://w"⟩ 0 =
    ⟨⟨[], ["https://example.com/sub.vtt"], [], []⟩, 1, [1000],
      [.retryScheduled, .skipped]⟩ :=
  empty_body_is_fetch_failure _ 4 initialState "https://example.com/sub.vtt?lang=en"
    ⟨"t", "https://w"⟩ (by decide) (by decide) rfl
example : isSubtitleUrl "https://a.com/movie.vtt?lang=en" = true := by decide
example : isSubtitleUrl "https://a.com/subtitle/x" = true := by decide
example : isSubtitleUrl "https://a.com/xsubtitlex" = false := by decide
example : isSubtitleUrl "https://a.com/app.js?x=1" = false := by decide
example : isSubtitleUrl "https://a.com/sub/a.json" = false := by decide
example : isSubtitleUrl "https://a.com/chunk.vtt" = false := by decide
example : isSubtitleUrl "https://a.com/x.css?f=.vtt" = false := by decide
